import Mathlib

/-!
Verification of the DCN network-monitoring core (`src/app.py`).

The runtime arithmetic of the source is Python floating point; here it is
embedded exactly over the rationals `ℚ`, with Python `int()` truncation
modelled as truncation toward zero on `ℚ`.  All definitions below are
transcribed from `NetworkState.get_current_metrics`, `_background_logger`
and the `update_config` route of `src/app.py`.
-/

/-- The classifier's congestion state: one of low, med, high. -/
inductive CongState
  | low
  | med
  | high
deriving DecidableEq, Repr

/-- Python `int()` applied to a float: truncation toward zero,
modelled on `ℚ` by T-division of numerator by denominator. -/
def truncQ (q : ℚ) : ℤ := q.num.tdiv (q.den : ℤ)

lemma truncQ_intCast (n : ℤ) : truncQ (n : ℚ) = n := by
  unfold truncQ
  rw [Rat.num_intCast, Rat.den_intCast]
  simp

/-- `utilization_ratio = min(0.99, total_load / self.capacity_mbps)` (app.py line 205). -/
def utilizationRatio (totalLoad capacityMbps : ℚ) : ℚ :=
  min (99/100) (totalLoad / capacityMbps)

/-- `base_delay = 5.0 / (1.0 - utilization_ratio)` (app.py line 206). -/
def baseDelay (ur : ℚ) : ℚ := 5 / (1 - ur)

/-- Threshold fallback classifier (app.py lines 226-233): returns the
state together with the fixed confidence 80.0. -/
def thresholdClassify (ur threshold : ℚ) : CongState × ℚ :=
  if ur < threshold then (CongState.low, 80)
  else if ur < min (95/100) (threshold + 35/100) then (CongState.med, 80)
  else (CongState.high, 80)

/-- C7: for load ≥ 0 and capacity > 0 the utilization ratio lies in
[0, 0.99], the delay denominator is nonzero, and the base delay is
positive. -/
theorem utilizationRatio_baseDelay_safe :
    ∀ load cap : ℚ, 0 ≤ load → 0 < cap →
      0 ≤ utilizationRatio load cap ∧ utilizationRatio load cap ≤ 99/100 ∧
      (1 - utilizationRatio load cap) ≠ 0 ∧ 0 < baseDelay (utilizationRatio load cap) := by
  intro load cap hload hcap
  have hdiv : 0 ≤ load / cap := div_nonneg hload (le_of_lt hcap)
  have h0 : 0 ≤ utilizationRatio load cap := le_min (by norm_num) hdiv
  have h99 : utilizationRatio load cap ≤ 99/100 := min_le_left _ _
  have hlt : utilizationRatio load cap < 1 := lt_of_le_of_lt h99 (by norm_num)
  have hpos : 0 < 1 - utilizationRatio load cap := by linarith
  refine ⟨h0, h99, ne_of_gt hpos, ?_⟩
  exact div_pos (by norm_num) hpos

/-- Witness for C7 at the boundary `load = capacity = 100`. -/
theorem utilizationRatio_baseDelay_safe_witness :
    0 ≤ utilizationRatio 100 100 ∧ utilizationRatio 100 100 ≤ 99/100 ∧
    (1 - utilizationRatio 100 100) ≠ 0 ∧ 0 < baseDelay (utilizationRatio 100 100) :=
  utilizationRatio_baseDelay_safe 100 100 (by norm_num) (by norm_num)

/-- C6: the threshold-backed classifier returns low iff the ratio is
below the threshold, med iff it lies in [threshold, min(0.95, threshold+0.35)),
high otherwise, always with confidence 80.0; at load 95, capacity 100 and
threshold 0.4 it returns high. -/
theorem thresholdClassify_spec :
    ∀ ur th : ℚ,
      ((thresholdClassify ur th).1 = CongState.low ↔ ur < th) ∧
      ((thresholdClassify ur th).1 = CongState.med ↔
        th ≤ ur ∧ ur < min (95/100) (th + 35/100)) ∧
      ((thresholdClassify ur th).1 = CongState.high ↔
        th ≤ ur ∧ min (95/100) (th + 35/100) ≤ ur) ∧
      (thresholdClassify ur th).2 = 80 ∧
      (thresholdClassify (utilizationRatio 95 100) (2/5)).1 = CongState.high := by
  intro ur th
  refine ⟨?_, ?_, ?_, ?_, ?_⟩
  · unfold thresholdClassify
    split
    · simp_all
    · split <;> simp_all
  · unfold thresholdClassify
    split
    · rename_i h
      simp only [show (CongState.low = CongState.med) = False by simp]
      constructor
      · intro hc; exact absurd hc (by simp)
      · rintro ⟨h1, _⟩; linarith
    · rename_i h
      push_neg at h
      split
      · simp_all
      · rename_i h2
        push_neg at h2
        constructor
        · intro hc; exact absurd hc (by simp)
        · rintro ⟨_, hlt⟩; linarith
  · unfold thresholdClassify
    split
    · rename_i h
      constructor
      · intro hc; exact absurd hc (by simp)
      · rintro ⟨h1, _⟩; linarith
    · rename_i h
      push_neg at h
      split
      · rename_i h2
        constructor
        · intro hc; exact absurd hc (by simp)
        · rintro ⟨_, hge⟩; linarith
      · rename_i h2
        push_neg at h2
        simp_all
  · unfold thresholdClassify
    split
    · rfl
    · split <;> rfl
  · show (thresholdClassify (min (99/100) ((95 : ℚ) / 100)) (2/5)).1 = CongState.high
    norm_num [thresholdClassify]

/-- Embedded JSON-ish request/config values.  A numeric value (JSON
number, or a numeric string accepted by the Python conversion) is carried
as an exact rational; `str` is a plain string; `null` stands for JSON
null or any other value on which `int()`/`float()` raises. -/
inductive JVal
  | num (q : ℚ)
  | str (s : String)
  | null
deriving DecidableEq, Repr

/-- The six allocation shares produced by the adaptive QoS controller
(app.py lines 237-259): bandwidth and queue shares for VoIP, HTTP, FTP. -/
structure QosShares where
  bwVoip : ℤ
  bwHttp : ℤ
  bwFtp : ℤ
  qVoip : ℤ
  qHttp : ℤ
  qFtp : ℤ
deriving DecidableEq, Repr

/-- Adaptive QoS controller (app.py lines 237-259).  `voipAlloc` is
`config['voip_alloc']` (an unclamped int), `ftpPrio` is the raw value
stored in `config['ftp_prio']`, compared against the strings "high" and
"low" exactly as the source does. -/
def qosAlloc (state : CongState) (voipAlloc : ℤ) (ftpPrio : JVal) : QosShares :=
  match state with
  | CongState.low => ⟨20, 50, 30, 10, 30, 60⟩
  | CongState.med =>
      let base : QosShares := ⟨30, 45, 25, 20, 40, 40⟩
      let s1 := if ftpPrio = JVal.str "high" then
          { base with bwFtp := base.bwFtp + 10, bwHttp := base.bwHttp - 10,
                      qFtp := base.qFtp - 10, qHttp := base.qHttp + 10 }
        else base
      if ftpPrio = JVal.str "low" then
          { s1 with bwFtp := s1.bwFtp - 10, bwHttp := s1.bwHttp + 10,
                    qFtp := s1.qFtp + 10, qHttp := s1.qHttp - 10 }
      else s1
  | CongState.high =>
      let rem : ℤ := 100 - voipAlloc
      let bwHttp : ℤ := truncQ ((rem : ℚ) * (7/10))
      let bwFtp : ℤ := rem - bwHttp
      let base : QosShares := ⟨voipAlloc, bwHttp, bwFtp, 50, 30, 20⟩
      if ftpPrio = JVal.str "high" then
        { base with qFtp := base.qFtp - 10, qHttp := base.qHttp + 10 }
      else base

/-- C1: in every congestion state, for every (unclamped) integer
`voipAlloc` and every stored bulk-priority value, the three bandwidth
shares sum to 100 and the three queue shares sum to 100. -/
theorem qosAlloc_sums_to_100 :
    ∀ (s : CongState) (va : ℤ) (fp : JVal),
      (qosAlloc s va fp).bwVoip + (qosAlloc s va fp).bwHttp + (qosAlloc s va fp).bwFtp = 100 ∧
      (qosAlloc s va fp).qVoip + (qosAlloc s va fp).qHttp + (qosAlloc s va fp).qFtp = 100 := by
  intro s va fp
  cases s
  · dsimp only [qosAlloc]
    exact ⟨by decide, by decide⟩
  · dsimp only [qosAlloc]
    split <;> split <;> exact ⟨by decide, by decide⟩
  · dsimp only [qosAlloc]
    split <;> dsimp only <;> exact ⟨by ring, by decide⟩

/-- Post-QoS performance estimator (app.py lines 266-277): returns
`(final_delay, packet_loss, final_tput)`. -/
def perfEstimate (state : CongState) (bd ur totalLoad : ℚ) : ℚ × ℚ × ℚ :=
  let dl : ℚ × ℚ :=
    match state with
    | CongState.high => (bd * (8/10), 1/2 + (ur - 3/4) * 5)
    | CongState.med => (bd * (9/10), 1/10)
    | CongState.low => (bd, 1/50)
  (dl.1, dl.2, totalLoad * (1 - dl.2 / 100))

/-- C2 counterexample: at utilization ratio 0.5 — reachable in the high
state, e.g. under threshold 0.1 — the code computes packet loss
0.5 + (0.5 - 0.75)·5 = -0.75, which differs from the claimed
0.5 + max(0, 0.5 - 0.75)·5 = 0.5 and is not ≥ 0.5. -/
theorem perfEstimate_high_loss_counterexample :
    (thresholdClassify (1/2) (1/10)).1 = CongState.high ∧
    (perfEstimate CongState.high 5 (1/2) 10).2.1 = -3/4 ∧
    (perfEstimate CongState.high 5 (1/2) 10).2.1 ≠ 1/2 + max 0 ((1/2 : ℚ) - 3/4) * 5 ∧
    ¬ (1/2 ≤ (perfEstimate CongState.high 5 (1/2) 10).2.1) := by
  refine ⟨?_, ?_, ?_, ?_⟩
  · norm_num [thresholdClassify]
  · norm_num [perfEstimate]
  · norm_num [perfEstimate]
  · norm_num [perfEstimate]

/-- C2 amended: the estimator returns, for high,
`final_delay = baseDelay·0.8` and `loss = 0.5 + (utilizationRatio-0.75)·5`
(no `max(0,·)`); for med `baseDelay·0.9` and `0.1`; for low `baseDelay`
and `0.02`; in every state `final_tput = load·(1 - loss/100)`; and in the
high state the loss is at least 0.5 exactly when the ratio is ≥ 0.75. -/
theorem perfEstimate_spec :
    ∀ bd ur ld : ℚ,
      perfEstimate CongState.high bd ur ld =
        (bd * (8/10), 1/2 + (ur - 3/4) * 5,
          ld * (1 - (1/2 + (ur - 3/4) * 5) / 100)) ∧
      perfEstimate CongState.med bd ur ld =
        (bd * (9/10), 1/10, ld * (1 - (1/10) / 100)) ∧
      perfEstimate CongState.low bd ur ld =
        (bd, 1/50, ld * (1 - (1/50) / 100)) ∧
      (3/4 ≤ ur → 1/2 ≤ (perfEstimate CongState.high bd ur ld).2.1) := by
  intro bd ur ld
  refine ⟨rfl, rfl, rfl, ?_⟩
  intro h
  show (1/2 : ℚ) ≤ 1/2 + (ur - 3/4) * 5
  nlinarith

/-- Witness for the amended C2 at ratio 0.8. -/
theorem perfEstimate_spec_witness :
    1/2 ≤ (perfEstimate CongState.high 5 (8/10) 10).2.1 :=
  (perfEstimate_spec 5 (8/10) 10).2.2.2 (by norm_num)

/-- Python float `%` with a positive modulus: `t % 60 = t - 60·⌊t/60⌋`,
always in `[0, 60)`. -/
def mod60 (t : ℚ) : ℚ := t - 60 * ⌊t / 60⌋

/-- Sleep computation of `_background_logger` (app.py lines 92-97):
`sleep_time = 60 - (now % 60)`, bumped by 60 when below 0.1. -/
def loggerSleep (now : ℚ) : ℚ :=
  let s := 60 - mod60 now
  if s < 1/10 then s + 60 else s

lemma mod60_nonneg (t : ℚ) : 0 ≤ mod60 t := by
  have h := Int.fract_nonneg (t / 60)
  have h60 : mod60 t = 60 * Int.fract (t / 60) := by
    unfold mod60 Int.fract
    ring
  rw [h60]
  positivity

lemma mod60_lt (t : ℚ) : mod60 t < 60 := by
  have h := Int.fract_lt_one (t / 60)
  have h60 : mod60 t = 60 * Int.fract (t / 60) := by
    unfold mod60 Int.fract
    ring
  rw [h60]
  linarith

/-- C5: the logger's sleep equals `60 - (now mod 60)` when that is at
least 0.1 and `60 - (now mod 60) + 60` when it is below 0.1; it always
lies in `[0.1, 60.1)`; `now + sleep` lands on a multiple of 60; and when
`now mod 60 = 59.95` the sleep is 60.05 seconds. -/
theorem loggerSleep_spec :
    ∀ now : ℚ,
      (1/10 ≤ 60 - mod60 now → loggerSleep now = 60 - mod60 now) ∧
      (60 - mod60 now < 1/10 → loggerSleep now = 60 - mod60 now + 60) ∧
      1/10 ≤ loggerSleep now ∧ loggerSleep now < 60 + 1/10 ∧
      (∃ k : ℤ, now + loggerSleep now = 60 * k) ∧
      (mod60 now = 1199/20 → loggerSleep now = 1201/20) := by
  intro now
  have hnn := mod60_nonneg now
  have hlt := mod60_lt now
  refine ⟨?_, ?_, ?_, ?_, ?_, ?_⟩
  · intro h
    unfold loggerSleep
    dsimp only
    rw [if_neg (by linarith)]
  · intro h
    unfold loggerSleep
    dsimp only
    rw [if_pos (by linarith)]
  · unfold loggerSleep
    dsimp only
    split <;> linarith
  · unfold loggerSleep
    dsimp only
    split <;> linarith
  · unfold loggerSleep
    dsimp only
    split
    · exact ⟨⌊now / 60⌋ + 2, by unfold mod60; push_cast; ring⟩
    · exact ⟨⌊now / 60⌋ + 1, by unfold mod60; push_cast; ring⟩
  · intro h
    unfold loggerSleep
    rw [h]
    norm_num

/-- Witness for C5 at `now = 59.95` (so `now mod 60 = 59.95`): the sleep
is 60.05 seconds. -/
theorem loggerSleep_spec_witness : loggerSleep (1199/20) = 1201/20 := by
  have hmod : mod60 (1199/20) = 1199/20 := by
    have hfl : ⌊(1199/20 : ℚ) / 60⌋ = 0 := by
      rw [Int.floor_eq_zero_iff]
      constructor <;> norm_num
    unfold mod60
    rw [hfl]
    norm_num
  exact (loggerSleep_spec (1199/20)).2.2.2.2.2 hmod

/-- The shared configuration dictionary (app.py lines 27-31).  The
source stores `voip_alloc` as a Python int, `threshold` as a float and
`ftp_prio` as whatever raw value the last write supplied. -/
structure Config where
  voipAlloc : ℤ
  threshold : ℚ
  ftpPrio : JVal
deriving DecidableEq, Repr

/-- Initial configuration: `{"voip_alloc": 50, "threshold": 0.4, "ftp_prio": "std"}`. -/
def initConfig : Config := ⟨50, 2/5, JVal.str "std"⟩

/-- Python `int(x)`: truncates a number toward zero, parses an integer
literal string, raises (returns `none`) otherwise. -/
def pyInt : JVal → Option ℤ
  | JVal.num q => some (truncQ q)
  | JVal.str s => s.toInt?
  | JVal.null => none

/-- Python `float(x)`: a number passes through; a numeric string parses
(fractional numeric strings are represented as `num` upstream, so only
integer-literal strings are parsed here); anything else raises. -/
def pyFloat : JVal → Option ℚ
  | JVal.num q => some q
  | JVal.str s => (s.toInt?).map (fun n => (n : ℚ))
  | JVal.null => none

/-- A POST body for `/api/config`: each of the three keys may be absent. -/
structure ConfigRequest where
  voipAlloc : Option JVal
  threshold : Option JVal
  ftpPrio : Option JVal
deriving DecidableEq, Repr

/-- The `update_config` route (app.py lines 398-410).  The three keys
are processed in order; a failing conversion raises out of the handler,
so the boolean result is `false` and the mutations already performed are
kept.  No range clamping is applied anywhere. -/
def updateConfig (cfg : Config) (req : ConfigRequest) : Config × Bool :=
  let step1 : Config × Bool :=
    match req.voipAlloc with
    | none => (cfg, true)
    | some v =>
        match pyInt v with
        | some n => ({ cfg with voipAlloc := n }, true)
        | none => (cfg, false)
  if step1.2 = false then step1 else
  let step2 : Config × Bool :=
    match req.threshold with
    | none => (step1.1, true)
    | some v =>
        match pyFloat v with
        | some q => ({ step1.1 with threshold := q }, true)
        | none => (step1.1, false)
  if step2.2 = false then step2 else
  match req.ftpPrio with
  | none => (step2.1, true)
  | some v => ({ step2.1 with ftpPrio := v }, true)

/-- C3 counterexample: the write `{"voip_alloc": 150}` is accepted and
stores 150, which violates the claimed clamp to [0, 100]. -/
theorem updateConfig_clamp_counterexample :
    (updateConfig initConfig ⟨some (JVal.num 150), none, none⟩).2 = true ∧
    ¬ ((updateConfig initConfig ⟨some (JVal.num 150), none, none⟩).1.voipAlloc ≤ 100) := by
  have h150 : truncQ (150 : ℚ) = 150 := by
    have hc : ((150 : ℤ) : ℚ) = (150 : ℚ) := by norm_cast
    rw [← hc, truncQ_intCast]
  have hrun : updateConfig initConfig ⟨some (JVal.num 150), none, none⟩ =
      ({ initConfig with voipAlloc := truncQ 150 }, true) := rfl
  rw [hrun, h150]
  exact ⟨rfl, by decide⟩

/-- C3 amended: a write whose values convert successfully is accepted
and stores the `int()`-truncated voipAlloc and the raw threshold with no
range clamping at all (values outside [0,100] and outside [0,1) are
stored as-is). -/
theorem updateConfig_no_clamp :
    ∀ (cfg : Config) (q r : ℚ),
      updateConfig cfg ⟨some (JVal.num q), some (JVal.num r), none⟩ =
        ({ cfg with voipAlloc := truncQ q, threshold := r }, true) := by
  intro cfg q r
  rfl

/-- C4 counterexample: the write `{"voip_alloc": 30, "threshold": null}`
fails (the `float()` conversion raises), yet the configuration is not
retained unchanged — `voip_alloc`, processed before the invalid field,
has already been overwritten with 30. -/
theorem updateConfig_retain_counterexample :
    (updateConfig initConfig ⟨some (JVal.num 30), some JVal.null, none⟩).2 = false ∧
    (updateConfig initConfig ⟨some (JVal.num 30), some JVal.null, none⟩).1 ≠ initConfig ∧
    (updateConfig initConfig ⟨some (JVal.num 30), some JVal.null, none⟩).1.voipAlloc = 30 := by
  have h30 : truncQ (30 : ℚ) = 30 := by
    have hc : ((30 : ℤ) : ℚ) = (30 : ℚ) := by norm_cast
    rw [← hc, truncQ_intCast]
  have hrun : updateConfig initConfig ⟨some (JVal.num 30), some JVal.null, none⟩ =
      ({ initConfig with voipAlloc := truncQ 30 }, false) := rfl
  rw [hrun, h30]
  refine ⟨rfl, ?_, rfl⟩
  intro hcontra
  have : (30 : ℤ) = 50 := congrArg Config.voipAlloc hcontra
  exact absurd this (by decide)

/-- C4 amended: a request whose first field already fails to convert
leaves the whole configuration unchanged; a request whose second field
fails keeps the new value written to the first field; and out-of-range
numeric values are accepted rather than rejected. -/
theorem updateConfig_partial_mutation :
    ∀ (cfg : Config) (q : ℚ) (b : Option JVal),
      updateConfig cfg ⟨some JVal.null, some (JVal.num q), b⟩ = (cfg, false) ∧
      updateConfig cfg ⟨some (JVal.num q), some JVal.null, b⟩ =
        ({ cfg with voipAlloc := truncQ q }, false) ∧
      updateConfig cfg ⟨some (JVal.num 150), none, none⟩ =
        ({ cfg with voipAlloc := truncQ 150 }, true) := by
  intro cfg q b
  exact ⟨rfl, rfl, rfl⟩

/-- Alert severity tags (`cls` field of the alert dictionaries). -/
inductive AlertCls
  | ok
  | warn
  | crit
deriving DecidableEq, Repr

/-- The five alert events of app.py lines 283-298.  The high-transition
alert carries the VoIP bandwidth reservation interpolated into its
message text. -/
inductive Alert
  | transHigh (bwVoip : ℤ)
  | transMed
  | transLow
  | critUtil
  | lossWarn
deriving DecidableEq, Repr

/-- Severity class attached to each alert by the source. -/
def alertCls : Alert → AlertCls
  | Alert.transHigh _ => AlertCls.warn
  | Alert.transMed => AlertCls.ok
  | Alert.transLow => AlertCls.ok
  | Alert.critUtil => AlertCls.crit
  | Alert.lossWarn => AlertCls.warn

/-- Whether an alert is a state-transition alert. -/
def isTransitionB : Alert → Bool
  | Alert.transHigh _ => true
  | Alert.transMed => true
  | Alert.transLow => true
  | Alert.critUtil => false
  | Alert.lossWarn => false

/-- Alert generation of one Facade cycle (app.py lines 279-298):
transition alert when the state differs from `last_state` (updating
`last_state` in the same step), then the level-triggered threshold
alerts.  Returns the alert list and the updated `last_state`. -/
def genAlerts (lastState state : CongState) (ur packetLoss : ℚ) (bwVoip : ℤ) :
    List Alert × CongState :=
  let transPart : List Alert × CongState :=
    if state ≠ lastState then
      (match state with
        | CongState.high => [Alert.transHigh bwVoip]
        | CongState.med => [Alert.transMed]
        | CongState.low => [Alert.transLow], state)
    else ([], lastState)
  let a2 : List Alert := if ur > 85/100 then [Alert.critUtil] else []
  let a3 : List Alert := if packetLoss > 1 then [Alert.lossWarn] else []
  (transPart.1 ++ a2 ++ a3, transPart.2)

/-- The inputs of one Facade cycle that feed the alert generator. -/
structure CycleIn where
  state : CongState
  ur : ℚ
  pl : ℚ
  bw : ℤ

/-- Alert generation iterated over a sequence of Facade cycles,
threading `last_state` exactly as the long-lived `NetworkState` does. -/
def runAlerts (last : CongState) : List CycleIn → List (List Alert) × CongState
  | [] => ([], last)
  | c :: rest =>
      let step := genAlerts last c.state c.ur c.pl c.bw
      let r := runAlerts step.2 rest
      (step.1 :: r.1, r.2)

/-- Number of adjacent state changes along a run. -/
def countChanges : CongState → List CongState → Nat
  | _, [] => 0
  | last, s :: rest => (if s = last then 0 else 1) + countChanges s rest

lemma genAlerts_snd (last s : CongState) (ur pl : ℚ) (bw : ℤ) :
    (genAlerts last s ur pl bw).2 = s := by
  by_cases h : s = last
  · simp [genAlerts, h]
  · simp [genAlerts, h]

lemma genAlerts_countP (last s : CongState) (ur pl : ℚ) (bw : ℤ) :
    (genAlerts last s ur pl bw).1.countP isTransitionB = if s = last then 0 else 1 := by
  by_cases h : s = last
  · subst h
    by_cases hu : ur > 85/100 <;> by_cases hp : pl > 1 <;>
      simp [genAlerts, hu, hp, isTransitionB, List.countP_cons, List.countP_append]
  · by_cases hu : ur > 85/100 <;> by_cases hp : pl > 1 <;>
      cases s <;>
        simp [genAlerts, h, hu, hp, isTransitionB, List.countP_cons, List.countP_append]

lemma runAlerts_countChanges :
    ∀ (cycles : List CycleIn) (last : CongState),
      ((runAlerts last cycles).1.map (List.countP isTransitionB)).sum =
        countChanges last (cycles.map CycleIn.state) := by
  intro cycles
  induction cycles with
  | nil => intro last; rfl
  | cons c rest ih =>
      intro last
      show ((genAlerts last c.state c.ur c.pl c.bw).1.countP isTransitionB) +
          ((runAlerts (genAlerts last c.state c.ur c.pl c.bw).2 rest).1.map
            (List.countP isTransitionB)).sum =
          (if c.state = last then 0 else 1) + countChanges c.state (rest.map CycleIn.state)
      rw [genAlerts_countP, genAlerts_snd, ih]

lemma genAlerts_mem_crit (last s : CongState) (ur pl : ℚ) (bw : ℤ) :
    Alert.critUtil ∈ (genAlerts last s ur pl bw).1 ↔ ur > 85/100 := by
  by_cases h : s = last
  · subst h
    by_cases hu : ur > 85/100 <;> by_cases hp : pl > 1 <;>
      simp [genAlerts, hu, hp]
  · by_cases hu : ur > 85/100 <;> by_cases hp : pl > 1 <;>
      cases s <;> simp [genAlerts, h, hu, hp]

lemma genAlerts_mem_loss (last s : CongState) (ur pl : ℚ) (bw : ℤ) :
    Alert.lossWarn ∈ (genAlerts last s ur pl bw).1 ↔ pl > 1 := by
  by_cases h : s = last
  · subst h
    by_cases hu : ur > 85/100 <;> by_cases hp : pl > 1 <;>
      simp [genAlerts, hu, hp]
  · by_cases hu : ur > 85/100 <;> by_cases hp : pl > 1 <;>
      cases s <;> simp [genAlerts, h, hu, hp]

lemma genAlerts_exists_trans (last s : CongState) (ur pl : ℚ) (bw : ℤ) :
    (∃ a ∈ (genAlerts last s ur pl bw).1, isTransitionB a = true) ↔ s ≠ last := by
  by_cases h : s = last
  · subst h
    by_cases hu : ur > 85/100 <;> by_cases hp : pl > 1 <;>
      simp [genAlerts, hu, hp, isTransitionB]
  · by_cases hu : ur > 85/100 <;> by_cases hp : pl > 1 <;>
      cases s <;> simp [genAlerts, h, hu, hp, isTransitionB]

/-- C8: in each cycle a transition alert appears iff the classified
state differs from the stored `last_state` (and then exactly one), the
cycle sets `last_state` to the new state, the critical-utilization and
packet-loss alerts appear iff their conditions hold with classes `crit`
and `warn`, and over any sequence of cycles the total number of
transition alerts equals the number of state changes. -/
theorem alert_discipline :
    ∀ (last s : CongState) (ur pl : ℚ) (bw : ℤ) (cycles : List CycleIn),
      ((∃ a ∈ (genAlerts last s ur pl bw).1, isTransitionB a = true) ↔ s ≠ last) ∧
      ((genAlerts last s ur pl bw).1.countP isTransitionB = if s = last then 0 else 1) ∧
      (genAlerts last s ur pl bw).2 = s ∧
      (Alert.critUtil ∈ (genAlerts last s ur pl bw).1 ↔ ur > 85/100) ∧
      (Alert.lossWarn ∈ (genAlerts last s ur pl bw).1 ↔ pl > 1) ∧
      alertCls Alert.critUtil = AlertCls.crit ∧
      alertCls Alert.lossWarn = AlertCls.warn ∧
      ((runAlerts last cycles).1.map (List.countP isTransitionB)).sum =
        countChanges last (cycles.map CycleIn.state) :=
  fun last s ur pl bw cycles =>
    ⟨genAlerts_exists_trans last s ur pl bw, genAlerts_countP last s ur pl bw,
     genAlerts_snd last s ur pl bw, genAlerts_mem_crit last s ur pl bw,
     genAlerts_mem_loss last s ur pl bw, rfl, rfl,
     runAlerts_countChanges cycles last⟩

/-- Fallback process list injected when enumeration yields nothing
(app.py lines 322-323). -/
def placeholderProcs : List String :=
  ["System Kernel", "Network Interface", "DCN Controller"]

/-- Insertion step of a sort that is descending on connection count. -/
def insertByCount (p : String × Nat) : List (String × Nat) → List (String × Nat)
  | [] => [p]
  | q :: rest => if p.2 ≤ q.2 then q :: insertByCount p rest else p :: q :: rest

/-- `sorted(procs.items(), key=..., reverse=True)` (app.py line 317). -/
def sortByCountDesc : List (String × Nat) → List (String × Nat)
  | [] => []
  | p :: rest => insertByCount p (sortByCountDesc rest)

/-- Active-process harvesting (app.py lines 300-323).  `none` models the
exception path; `some items` holds the items of the name →
ESTABLISHED-connection-count dictionary.  The top five names by count
are kept; an empty result is replaced by the placeholder list. -/
def activeProcesses (conns : Option (List (String × Nat))) : List String :=
  let procs : List String :=
    match conns with
    | none => []
    | some items => ((sortByCountDesc items).take 5).map Prod.fst
  if procs = [] then placeholderProcs else procs

lemma insertByCount_length (p : String × Nat) (l : List (String × Nat)) :
    (insertByCount p l).length = l.length + 1 := by
  induction l with
  | nil => rfl
  | cons q rest ih =>
      unfold insertByCount
      split
      · simp [ih]
      · simp

lemma sortByCountDesc_length (l : List (String × Nat)) :
    (sortByCountDesc l).length = l.length := by
  induction l with
  | nil => rfl
  | cons p rest ih =>
      unfold sortByCountDesc
      rw [insertByCount_length, ih]
      simp

/-- C10: every snapshot's process list is non-empty and has at most five
entries; the error path and the no-connections path both produce the
fixed placeholder list. -/
theorem activeProcesses_spec :
    ∀ conns : Option (List (String × Nat)),
      activeProcesses conns ≠ [] ∧
      (activeProcesses conns).length ≤ 5 ∧
      activeProcesses none = placeholderProcs ∧
      activeProcesses (some []) = placeholderProcs := by
  intro conns
  refine ⟨?_, ?_, rfl, rfl⟩
  · cases conns with
    | none => simp [activeProcesses, placeholderProcs]
    | some items =>
        simp only [activeProcesses]
        split
        · simp [placeholderProcs]
        · assumption
  · cases conns with
    | none => norm_num [activeProcesses, placeholderProcs]
    | some items =>
        simp only [activeProcesses]
        split
        · norm_num [placeholderProcs]
        · simp only [List.length_map, List.length_take]
          exact min_le_left _ _
